import Mathlib

/-!
Verification development for the `/replace-image` endpoint of the
eds-boilerplate-with-sidekick repository (`src/api/google/replace-image.js`).

The JavaScript handler is shallowly embedded: strings are `List Char`,
document trees are inductive structures mirroring the Google Docs JSON shape,
and network round-trips (token exchange, document fetches, batch updates) are
represented by a `World` record of their outcomes together with an ordered
trace of outbound `Step`s.  The unbounded per-run scanning loop
(lines 146-154 of the source) is embedded with explicit fuel.
-/

namespace ReplaceImage

/-- `matchesAt text ph p` holds when the substring of `text` starting at
position `p` begins with `ph` (an exact character match, as JavaScript's
`String.prototype.indexOf` performs).  Taking `ph.length` characters and
comparing with `ph` also forces `p + ph.length ≤ text.length`. -/
def matchesAt (text ph : List Char) (p : Nat) : Bool :=
  decide ((text.drop p).take ph.length = ph)

/-- All positions `0 ≤ p ≤ text.length` at which the placeholder matches,
in ascending order.  This is the specification-side notion of the set of
placeholder occurrences inside one text run. -/
def matchPositions (text ph : List Char) : List Nat :=
  (List.range (text.length + 1)).filter (fun p => matchesAt text ph p)

/-- Embedding of JavaScript `text.indexOf(ph, start)` (source line 148):
the least position `p ≥ min start text.length` at which `ph` occurs, `none`
for `-1`.  The clamp `min start text.length` reproduces the JS semantics of
a start position beyond the end of the string. -/
def indexOfFrom (text ph : List Char) (start : Nat) : Option Nat :=
  ((List.range (text.length + 1)).filter
    (fun p => decide (min start text.length ≤ p) && matchesAt text ph p)).head?

/-- Substring containment, the embedding of JavaScript `regex.test(s)` for a
literal pattern (source lines 110-111) and `s.includes(pat)` (line 247). -/
def containsSubstr (s pat : List Char) : Bool :=
  (List.range (s.length + 1)).any (fun i => matchesAt s pat i)

/-- Embedding of the capture-group extraction performed by
`/<pat>([^\/]+)/.exec(url)` (source lines 94-97 and 117): the leftmost
position where the literal pattern is followed by at least one
non-slash character; the captured run of non-slash characters. -/
def extractAfter (url pat : List Char) : Option (List Char) :=
  (((List.range (url.length + 1)).filter
    (fun i => matchesAt url pat i &&
      !((url.drop (i + pat.length)).takeWhile (fun c => c ≠ '/')).isEmpty)).head?).map
    (fun i => (url.drop (i + pat.length)).takeWhile (fun c => c ≠ '/'))

/-- The literal Docs URL pattern of source line 110 (and lines 94-97). -/
def docsPattern : List Char := "https://docs.google.com/document/d/".toList

/-- The literal Sheets URL pattern of source line 111. -/
def sheetsPattern : List Char := "https://docs.google.com/spreadsheets/d/".toList

/-- The literal pattern of the sheet-id capture regex on source line 117. -/
def sheetsIdPattern : List Char := "/spreadsheets/d/".toList

/-- The default placeholder `{{images}}` of source line 106
(braces written with escapes). -/
def defaultPlaceholder : List Char := "\x7b\x7bimages\x7d\x7d".toList

/-- Fuel-indexed embedding of the unbounded scanning loop of source lines
146-154: starting at `from_`, repeatedly find the next occurrence of `ph`,
record the absolute interval `[startIndex + pos, startIndex + pos + ph.length)`
and resume searching at `pos + ph.length`.  `none` means the fuel was
exhausted before the loop exited, i.e. the loop ran longer than `fuel`
iterations. -/
def scanRunFuel : Nat → List Char → List Char → Nat → Nat → Option (List (Nat × Nat))
  | 0, _, _, _, _ => none
  | fuel + 1, text, ph, startIndex, from_ =>
    match indexOfFrom text ph from_ with
    | none => some []
    | some pos =>
      (scanRunFuel fuel text ph startIndex (pos + ph.length)).map
        (fun rest => (startIndex + pos, startIndex + pos + ph.length) :: rest)

/-- The per-run scan.  For a non-empty placeholder, `text.length + 1` fuel is
provably sufficient (`scanRunFuel_isSome_of_ne_nil` below), so this equals the
JavaScript loop; for the empty placeholder the JavaScript loop diverges and
the fuel default is never semantically relied upon (claim C10). -/
def scanRun (text ph : List Char) (startIndex : Nat) : List (Nat × Nat) :=
  (scanRunFuel (text.length + 1) text ph startIndex 0).getD []

/-! ## Document content tree (Google Docs JSON shape, source lines 135-172) -/

/-- A text run: the `textRun.content` string (`tr.content || ''` of
source line 143 makes it a plain string). -/
structure TextRun where
  content : List Char
deriving DecidableEq

/-- One inline element of a paragraph.  `startIndex`/`endIndex` are `none`
when the corresponding JSON field is absent or not a number (the
`typeof el.startIndex !== 'number'` guards of source lines 145 and 166). -/
structure Element where
  textRun : Option TextRun
  inlineObjectElement : Bool
  startIndex : Option Nat
  endIndex : Option Nat
deriving DecidableEq

/-- A paragraph: its ordered inline elements (`paragraph.elements || []`). -/
structure Paragraph where
  elements : List Element
deriving DecidableEq

/-- One block of `doc.body.content`; non-paragraph blocks carry `none`. -/
structure Block where
  paragraph : Option Paragraph
deriving DecidableEq

/-- Occurrence scan of one element (source lines 141-154): only elements
with a text run and a numeric `startIndex` are scanned. -/
def runOccurrences (el : Element) (ph : List Char) : List (Nat × Nat) :=
  match el.textRun, el.startIndex with
  | some tr, some s => scanRun tr.content ph s
  | _, _ => []

/-- The Occurrence Locator (source lines 136-156): traverse blocks in order,
paragraph elements in order, collecting every placeholder interval. -/
def locateOccurrences (content : List Block) (ph : List Char) : List (Nat × Nat) :=
  content.flatMap (fun b =>
    match b.paragraph with
    | none => []
    | some para => para.elements.flatMap (fun el => runOccurrences el ph))

/-- The text runs of the tree in traversal order, as
(recorded start offset, content) pairs — the elements the locator scans. -/
def textRuns (content : List Block) : List (Nat × List Char) :=
  content.flatMap (fun b =>
    match b.paragraph with
    | none => []
    | some para => para.elements.filterMap (fun el =>
        match el.textRun, el.startIndex with
        | some tr, some s => some (s, tr.content)
        | _, _ => none))

/-- All paragraph inline elements of the tree in traversal order. -/
def allParagraphElements (content : List Block) : List Element :=
  content.flatMap (fun b =>
    match b.paragraph with
    | none => []
    | some para => para.elements)

/-- The guard of source line 166: an element counts as an embedded image
when `inlineObjectElement` is present and both indices are numbers. -/
def isEmbeddedObjectEl (el : Element) : Bool :=
  el.inlineObjectElement && el.startIndex.isSome && el.endIndex.isSome

/-- Inner loop of the image fallback (source lines 164-170), with `break`:
the first qualifying element's own `[startIndex, endIndex)` pair. -/
def firstImageInElements : List Element → Option (Nat × Nat)
  | [] => none
  | el :: rest =>
    match el.inlineObjectElement, el.startIndex, el.endIndex with
    | true, some s, some e => some (s, e)
    | _, _, _ => firstImageInElements rest

/-- The image fallback of source lines 160-172: first embedded image range
in traversal order (outer loop over blocks with `break`). -/
def findFirstImage : List Block → Option (Nat × Nat)
  | [] => none
  | b :: rest =>
    match b.paragraph with
    | none => findFirstImage rest
    | some para =>
      match firstImageInElements para.elements with
      | some r => some r
      | none => findFirstImage rest

/-! ## Mutation Planner (source lines 198-212) -/

/-- One request of the Docs `batchUpdate` payload. -/
inductive DocRequest where
  | deleteContentRange (startIndex endIndex : Nat)
  | insertInlineImage (index : Nat) (uri : List Char) (widthPt heightPt : Nat)
deriving DecidableEq

/-- Insertion step of a stable descending sort on the first component,
matching `occurrences.sort((a, b) => b[0] - a[0])` of source line 198
(JavaScript's sort is stable, and any stable sort consistent with the
comparator yields this list). -/
def insertDesc (x : Nat × Nat) : List (Nat × Nat) → List (Nat × Nat)
  | [] => [x]
  | y :: ys => if y.1 ≤ x.1 then x :: y :: ys else y :: insertDesc x ys

/-- Stable sort of occurrences by descending start offset (source line 198). -/
def sortDescByStart : List (Nat × Nat) → List (Nat × Nat)
  | [] => []
  | x :: xs => insertDesc x (sortDescByStart xs)

/-- The Mutation Planner (source lines 198-212): sort occurrences by
descending start offset, then for each occurrence emit
`deleteContentRange[start, end)` followed by `insertInlineImage@start`. -/
def docsRequests (occs : List (Nat × Nat)) (uri : List Char) (wPt hPt : Nat) :
    List DocRequest :=
  (sortDescByStart occs).flatMap (fun o =>
    [DocRequest.deleteContentRange o.1 o.2,
     DocRequest.insertInlineImage o.1 uri wPt hPt])

/-! ## Sheets cell rewriting (source lines 239-257) -/

/-- A spreadsheet cell value as fetched: a string, or any non-string JSON
value (numbers, booleans, …), which the rewriter never touches because of
the `typeof cell === 'string'` guard on source line 247. -/
inductive Cell where
  | str (s : List Char)
  | nonString
deriving DecidableEq

/-- The `=IMAGE("<imageUrl>")` formula string of source line 249. -/
def imageFormula (uri : List Char) : List Char :=
  "=IMAGE(\"".toList ++ uri ++ "\")".toList

/-- The guard of source line 247: a string cell containing the placeholder. -/
def cellMatches (ph : List Char) : Cell → Bool
  | .str s => containsSubstr s ph
  | .nonString => false

/-- The per-cell rewrite of source lines 247-251: a matching string cell is
replaced wholesale by the image formula; every other cell is unchanged. -/
def rewriteCell (ph uri : List Char) : Cell → Cell
  | .str s => if containsSubstr s ph then .str (imageFormula uri) else .str s
  | .nonString => .nonString

/-- One entry of `valuesData.valueRanges` as fetched (source lines 240-243):
the A1-notation range string and the rows (`vr.values || []`,
`none` when the field is absent). -/
structure ValueRange where
  range : List Char
  values : Option (List (List Cell))
deriving DecidableEq

/-- One entry of the write-back `data` array (source line 255); the
`majorDimension` is the constant `'ROWS'` and is omitted. -/
structure DataEntry where
  range : List Char
  values : List (List Cell)
deriving DecidableEq

/-- The write-back batch construction of source lines 239-257: for each
fetched value range, rewrite every matching cell; a sheet enters the batch
(addressed at `<sheet>!A1`, the part of the range before `'!'`) exactly when
some cell matched. -/
def buildSheetData (ph uri : List Char) (vrs : List ValueRange) : List DataEntry :=
  vrs.filterMap (fun vr =>
    let sheet := vr.range.takeWhile (fun c => c ≠ '!')
    let rows := vr.values.getD []
    if rows.any (fun row => row.any (cellMatches ph)) then
      some ⟨sheet ++ "!A1".toList, rows.map (fun row => row.map (rewriteCell ph uri))⟩
    else none)

/-! ## Handler embedding (source lines 99-277) -/

/-- A JSON value appearing in the `replaced` response field: the Docs path
writes numbers (lines 175, 195, 216, 260), the Sheets success path writes
the boolean `true` (line 273). -/
inductive RVal where
  | num (n : Nat)
  | boolean (b : Bool)
deriving DecidableEq

/-- The JSON response body shape
`{replaced, type?, mode?}`; `none` marks an absent field. -/
structure JsonBody where
  replaced : RVal
  type : Option String
  mode : Option String
deriving DecidableEq

/-- A response body: JSON (the stringified objects of the 200 responses) or
plain text (the 400/500 messages). -/
inductive RespBody where
  | json (j : JsonBody)
  | text (s : String)
deriving DecidableEq

/-- An HTTP response (CORS headers carry no claim-relevant content and are
omitted). -/
structure Response where
  statusCode : Nat
  body : RespBody
deriving DecidableEq

/-- One outbound network call of the handler, in issue order. -/
inductive Step where
  | tokenExchange
  | docsGet (documentId : List Char)
  | docsBatchUpdate (documentId : List Char) (requests : List DocRequest)
  | sheetsMetaGet (documentId : List Char)
  | sheetsValuesGet (documentId : List Char) (titles : List (List Char))
  | sheetsValuesBatchUpdate (documentId : List Char) (data : List DataEntry)
deriving DecidableEq

/-- Outcomes of the handler's upstream calls, fixed per request: the token
exchange (`getGoogleAccessToken`, which throws on missing credentials or a
non-ok token response), the document/spreadsheet fetches, and the two batch
updates.  `Except.error` carries the thrown message. -/
structure World where
  token : Except String (List Char)
  docGet : Except String (List Block)
  docBatch : Except String Unit
  metaGet : Except String (List (Option (List Char)))
  valuesGet : Except String (List ValueRange)
  sheetsBatch : Except String Unit

/-- The parsed request-body object after destructuring (source line 106);
`none` marks an absent field. -/
structure ReqObj where
  docUrl : Option (List Char)
  imageUrl : Option (List Char)
  placeholder : Option (List Char)
  widthPt : Option Nat
  heightPt : Option Nat
  documentId : Option (List Char)
deriving DecidableEq

/-- The empty body object `{}`. -/
def emptyReqObj : ReqObj := ⟨none, none, none, none, none, none⟩

/-- `request.body` as the handler sees it (source line 105): a string body is
modelled by the outcome of `JSON.parse` on it (an external fallible call:
`.error` carries the `SyntaxError` message thrown on invalid JSON); an
object body is used as is; an absent body destructures like `{}`. -/
inductive ReqBody where
  | str (parsed : Except String ReqObj)
  | obj (o : ReqObj)
  | null

/-- An incoming request. -/
structure Request where
  method : String
  body : ReqBody

/-- Source line 105: `typeof body === 'string' ? JSON.parse(body || '{}')
: (body || {})`.  A failed parse propagates as a thrown error. -/
def parseBody : ReqBody → Except String ReqObj
  | .str (.ok o) => .ok o
  | .str (.error e) => .error e
  | .obj o => .ok o
  | .null => .ok emptyReqObj

/-- Source lines 115-117: the document id from the URL capture group, with
`body.documentId` as the `||` fallback. -/
def resolveDocumentId (isDocs : Bool) (docUrl : List Char)
    (bodyDocId : Option (List Char)) : Option (List Char) :=
  match (if isDocs then extractAfter docUrl docsPattern
         else extractAfter docUrl sheetsIdPattern) with
  | some id => some id
  | none => bodyDocId

/-- The Docs branch after a successful document fetch
(source lines 134-216). -/
def docsFlow (did : List Char) (content : List Block) (ph uri : List Char)
    (wPt hPt : Nat) (w : World) : Response × List Step :=
  let base := [Step.tokenExchange, Step.docsGet did]
  let occurrences := locateOccurrences content ph
  if occurrences.isEmpty then
    match findFirstImage content with
    | none => (⟨200, .json ⟨.num 0, none, none⟩⟩, base)
    | some (s, e) =>
      let requests := [DocRequest.deleteContentRange s e,
                       DocRequest.insertInlineImage s uri wPt hPt]
      match w.docBatch with
      | .error err => (⟨500, .text err⟩, base ++ [Step.docsBatchUpdate did requests])
      | .ok _ =>
        (⟨200, .json ⟨.num 1, some "docs", some "first-image"⟩⟩,
         base ++ [Step.docsBatchUpdate did requests])
  else
    let requests := docsRequests occurrences uri wPt hPt
    match w.docBatch with
    | .error err => (⟨500, .text err⟩, base ++ [Step.docsBatchUpdate did requests])
    | .ok _ =>
      (⟨200, .json ⟨.num occurrences.length, some "docs", none⟩⟩,
       base ++ [Step.docsBatchUpdate did requests])

/-- The Sheets branch (source lines 219-273). -/
def sheetsFlow (did ph uri : List Char) (w : World) : Response × List Step :=
  match w.metaGet with
  | .error e => (⟨500, .text e⟩, [Step.tokenExchange, Step.sheetsMetaGet did])
  | .ok sheets =>
    let sheetTitles := (sheets.filterMap id).filter (fun t => !t.isEmpty)
    match w.valuesGet with
    | .error e =>
      (⟨500, .text e⟩,
       [Step.tokenExchange, Step.sheetsMetaGet did, Step.sheetsValuesGet did sheetTitles])
    | .ok valueRanges =>
      let base := [Step.tokenExchange, Step.sheetsMetaGet did,
                   Step.sheetsValuesGet did sheetTitles]
      let data := buildSheetData ph uri valueRanges
      if data.isEmpty then
        (⟨200, .json ⟨.num 0, some "sheets", none⟩⟩, base)
      else
        match w.sheetsBatch with
        | .error e => (⟨500, .text e⟩, base ++ [Step.sheetsValuesBatchUpdate did data])
        | .ok _ =>
          (⟨200, .json ⟨.boolean true, some "sheets", none⟩⟩,
           base ++ [Step.sheetsValuesBatchUpdate did data])

/-- The body of the `try` block (source lines 105-273) after a successful
body parse. -/
def mainBody (b : ReqObj) (w : World) : Response × List Step :=
  let docUrl := b.docUrl.getD []
  let imageUrl := b.imageUrl.getD []
  if docUrl.isEmpty || imageUrl.isEmpty then
    (⟨400, .text "Missing docUrl or imageUrl"⟩, [])
  else
    let isDocs := containsSubstr docUrl docsPattern
    let isSheets := containsSubstr docUrl sheetsPattern
    if !isDocs && !isSheets then (⟨400, .text "Unsupported Google URL"⟩, [])
    else
      match resolveDocumentId isDocs docUrl b.documentId with
      | none => (⟨400, .text "Missing documentId"⟩, [])
      | some did =>
        if did.isEmpty then (⟨400, .text "Missing documentId"⟩, [])
        else
          match w.token with
          | .error e => (⟨500, .text e⟩, [Step.tokenExchange])
          | .ok _ =>
            if isDocs then
              match w.docGet with
              | .error e => (⟨500, .text e⟩, [Step.tokenExchange, Step.docsGet did])
              | .ok content =>
                docsFlow did content (b.placeholder.getD defaultPlaceholder)
                  imageUrl (b.widthPt.getD 200) (b.heightPt.getD 200) w
            else sheetsFlow did (b.placeholder.getD defaultPlaceholder) imageUrl w

/-- The exported handler `main` (source lines 99-277): OPTIONS preflight,
body parse (a parse failure is caught by the `catch` of lines 274-276 and
surfaced as a 500), then the validated Docs/Sheets flow.  The second
component is the ordered trace of outbound network calls. -/
def main (req : Request) (w : World) : Response × List Step :=
  if req.method = "OPTIONS" then (⟨204, .text ""⟩, [])
  else
    match parseBody req.body with
    | .error e => (⟨500, .text e⟩, [])
    | .ok b => mainBody b w

/-! ## Concrete instances used to exercise the definitions -/

def exDocUrl : List Char := "https://docs.google.com/document/d/abc".toList

def exSheetUrl : List Char := "https://docs.google.com/spreadsheets/d/sid".toList

def exImageUrl : List Char := "http://img".toList

/-- A well-formed Docs request with default placeholder and sizes. -/
def exDocsReq : Request :=
  ⟨"POST", .obj { emptyReqObj with docUrl := some exDocUrl, imageUrl := some exImageUrl }⟩

/-- A well-formed Sheets request with default placeholder. -/
def exSheetsReq : Request :=
  ⟨"POST", .obj { emptyReqObj with docUrl := some exSheetUrl, imageUrl := some exImageUrl }⟩

/-- A world whose document has no content at all. -/
def wEmptyDoc : World := ⟨.ok [], .ok [], .ok (), .ok [], .ok [], .ok ()⟩

def exBadUrl : List Char := "https://example.com/x".toList

/-- A request whose URL matches neither Google pattern. -/
def exBadReq : Request :=
  ⟨"POST", .obj { emptyReqObj with docUrl := some exBadUrl, imageUrl := some exImageUrl }⟩

/-- Two text runs whose recorded start offsets ascend (0 then 1) but whose
offset ranges overlap: run "XXXp" at 0 and run "p" at 1. -/
def c2Tree : List Block :=
  [⟨some ⟨[⟨some ⟨"XXXp".toList⟩, false, some 0, none⟩,
           ⟨some ⟨"p".toList⟩, false, some 1, none⟩]⟩⟩]

/-- Two text runs occupying disjoint ascending offset ranges:
"ab{{images}}" at offset 1 (range [1,13)) and "{{images}}x" at 13. -/
def c2GoodTree : List Block :=
  [⟨some ⟨[⟨some ⟨"ab\x7b\x7bimages\x7d\x7d".toList⟩, false, some 1, none⟩,
           ⟨some ⟨"\x7b\x7bimages\x7d\x7dx".toList⟩, false, some 13, none⟩]⟩⟩]

/-- An embedded-object element spanning [5, 6). -/
def c3El : Element := ⟨none, true, some 5, some 6⟩

/-- A tree with no text runs and one embedded image. -/
def c3Tree : List Block := [⟨some ⟨[c3El]⟩⟩]

def wC3 : World := ⟨.ok [], .ok c3Tree, .ok (), .ok [], .ok [], .ok ()⟩

/-- One sheet whose first cell contains the default placeholder. -/
def wSheetsVrs : List ValueRange :=
  [⟨"Sheet1!A1:Z1000".toList,
    some [[Cell.str ("\x7b\x7bimages\x7d\x7d here".toList), Cell.str "other".toList]]⟩]

def wSheets : World :=
  ⟨.ok [], .ok [], .ok (), .ok [some "Sheet1".toList], .ok wSheetsVrs, .ok ()⟩

/-- One sheet with no placeholder anywhere. -/
def wNoMatchVrs : List ValueRange :=
  [⟨"Sheet1!A1:Z1000".toList, some [[Cell.str "hello".toList]]⟩]

def wNoMatch : World :=
  ⟨.ok [], .ok [], .ok (), .ok [some "Sheet1".toList], .ok wNoMatchVrs, .ok ()⟩

/-! ## Lemmas about the per-run scan -/

theorem head?_mem {α : Type} {l : List α} {a : α} (h : l.head? = some a) : a ∈ l := by
  cases l with
  | nil => simp at h
  | cons x xs =>
    simp only [List.head?_cons, Option.some.injEq] at h
    rw [← h]
    exact List.mem_cons_self x xs

/-- A match of a non-empty placeholder fits inside the text. -/
theorem matchesAt_bound {text ph : List Char} {p : Nat}
    (h : matchesAt text ph p = true) (hph : ph ≠ []) :
    p + ph.length ≤ text.length := by
  have h' : (text.drop p).take ph.length = ph := by
    simpa [matchesAt] using h
  have hlen := congrArg List.length h'
  simp only [List.length_take, List.length_drop] at hlen
  have hph' : 0 < ph.length := List.length_pos.mpr hph
  omega

theorem mem_matchPositions {text ph : List Char} {p : Nat} :
    p ∈ matchPositions text ph ↔ p ≤ text.length ∧ matchesAt text ph p = true := by
  simp [matchPositions, List.mem_filter, List.mem_range, Nat.lt_succ_iff]

/-- For a non-empty placeholder the clamped JS `indexOf` is the head of the
match positions not below the search start. -/
theorem indexOfFrom_eq (text ph : List Char) (start : Nat) (hph : ph ≠ []) :
    indexOfFrom text ph start
      = ((matchPositions text ph).filter (fun p => decide (start ≤ p))).head? := by
  unfold indexOfFrom matchPositions
  rw [List.filter_filter]
  congr 1
  apply List.filter_congr
  intro p hp
  rw [List.mem_range] at hp
  cases hm : matchesAt text ph p with
  | false => simp [hm]
  | true =>
    have hb := matchesAt_bound hm hph
    have hl : 0 < ph.length := List.length_pos.mpr hph
    simp only [hm, Bool.and_true, decide_eq_decide]
    omega

/-- With the empty placeholder, `indexOf` always succeeds (JS returns the
clamped start position, never `-1`). -/
theorem indexOfFrom_nil_ne_none (text : List Char) (from_ : Nat) :
    indexOfFrom text [] from_ ≠ none := by
  have hmem : min from_ text.length ∈
      (List.range (text.length + 1)).filter
        (fun p => decide (min from_ text.length ≤ p) && matchesAt text [] p) := by
    rw [List.mem_filter]
    refine ⟨by rw [List.mem_range]; omega, ?_⟩
    simp [matchesAt]
  intro hnone
  unfold indexOfFrom at hnone
  rw [List.head?_eq_none_iff] at hnone
  rw [hnone] at hmem
  simp at hmem

/-- Claim C10, divergence half: with the empty placeholder the scanning loop
never finishes, whatever iteration bound is allowed. -/
theorem scanRunFuel_nil_placeholder (text : List Char) (s : Nat) :
    ∀ (fuel from_ : Nat), scanRunFuel fuel text [] s from_ = none := by
  intro fuel
  induction fuel with
  | zero => intro from_; rfl
  | succ n ih =>
    intro from_
    cases hidx : indexOfFrom text [] from_ with
    | none => exact absurd hidx (indexOfFrom_nil_ne_none text from_)
    | some pos => simp [scanRunFuel, hidx, ih]

/-- Claim C10, termination half: with a non-empty placeholder,
`text.length + 1` iterations always suffice. -/
theorem scanRunFuel_isSome (text ph : List Char) (s : Nat) (hph : ph ≠ []) :
    ∀ (fuel from_ : Nat), text.length + 1 - from_ ≤ fuel → 1 ≤ fuel →
      (scanRunFuel fuel text ph s from_).isSome = true := by
  intro fuel
  induction fuel with
  | zero => intro from_ _ h1; omega
  | succ n ih =>
    intro from_ hb _
    cases hidx : indexOfFrom text ph from_ with
    | none => simp [scanRunFuel, hidx]
    | some pos =>
      have hmem := head?_mem hidx
      rw [List.mem_filter, List.mem_range] at hmem
      obtain ⟨hrange, hcond⟩ := hmem
      rw [Bool.and_eq_true, decide_eq_true_eq] at hcond
      have hbound : pos + ph.length ≤ text.length := matchesAt_bound hcond.2 hph
      have hl : 0 < ph.length := List.length_pos.mpr hph
      have h1 : text.length + 1 - (pos + ph.length) ≤ n := by omega
      have h2 : 1 ≤ n := by omega
      have := ih (pos + ph.length) h1 h2
      simp [scanRunFuel, hidx, this]

/-- When the positions of a list are pairwise at least `k` apart, cutting at
the head of the `from_`-suffix and restarting `k` later loses nothing. -/
theorem filter_ge_head_cons {k : Nat} (hk : 1 ≤ k) :
    ∀ (l : List Nat) (from_ pos : Nat),
      l.Pairwise (fun p q => p + k ≤ q) →
      (l.filter (fun p => decide (from_ ≤ p))).head? = some pos →
      l.filter (fun p => decide (from_ ≤ p))
        = pos :: l.filter (fun p => decide (pos + k ≤ p)) := by
  intro l
  induction l with
  | nil => intro from_ pos _ h; simp at h
  | cons x xs ih =>
    intro from_ pos hpw h
    rw [List.pairwise_cons] at hpw
    obtain ⟨hx, hxs⟩ := hpw
    by_cases hc : from_ ≤ x
    · rw [List.filter_cons_of_pos (by simpa using hc)] at h ⊢
      simp only [List.head?_cons, Option.some.injEq] at h
      subst h
      rw [List.filter_cons_of_neg (by simp; omega)]
      congr 1
      apply List.filter_congr
      intro q hq
      have hq' := hx q hq
      simp only [decide_eq_decide]
      omega
    · rw [List.filter_cons_of_neg (by simpa using hc)] at h ⊢
      have hfx := head?_mem h
      rw [List.mem_filter, decide_eq_true_eq] at hfx
      rw [ih from_ pos hxs h]
      rw [List.filter_cons_of_neg (by simp; omega)]

/-- Value of the scanning loop: with a non-empty placeholder whose matches
are pairwise non-overlapping, the loop started at `from_` returns exactly
the intervals of all match positions at or beyond `from_`. -/
theorem scanRunFuel_eq (text ph : List Char) (s : Nat) (hph : ph ≠ [])
    (hsep : (matchPositions text ph).Pairwise (fun p q => p + ph.length ≤ q)) :
    ∀ (fuel from_ : Nat), text.length + 1 - from_ ≤ fuel → 1 ≤ fuel →
      scanRunFuel fuel text ph s from_
        = some (((matchPositions text ph).filter (fun p => decide (from_ ≤ p))).map
            (fun p => (s + p, s + p + ph.length))) := by
  intro fuel
  induction fuel with
  | zero => intro from_ _ h1; omega
  | succ n ih =>
    intro from_ hb _
    cases hidx : indexOfFrom text ph from_ with
    | none =>
      have hnil : (matchPositions text ph).filter (fun p => decide (from_ ≤ p)) = [] := by
        rw [indexOfFrom_eq text ph from_ hph] at hidx
        exact List.head?_eq_none_iff.mp hidx
      simp [scanRunFuel, hidx, hnil]
    | some pos =>
      have hidx' : ((matchPositions text ph).filter
          (fun p => decide (from_ ≤ p))).head? = some pos := by
        rw [← indexOfFrom_eq text ph from_ hph]; exact hidx
      have hl : 0 < ph.length := List.length_pos.mpr hph
      have hcons := filter_ge_head_cons hl (matchPositions text ph) from_ pos hsep hidx'
      have hmem := head?_mem hidx'
      rw [List.mem_filter, decide_eq_true_eq] at hmem
      obtain ⟨hmp, hfrom⟩ := hmem
      rw [mem_matchPositions] at hmp
      have hbound : pos + ph.length ≤ text.length := matchesAt_bound hmp.2 hph
      have h1 : text.length + 1 - (pos + ph.length) ≤ n := by omega
      have h2 : 1 ≤ n := by omega
      rw [show scanRunFuel (n + 1) text ph s from_
            = (scanRunFuel n text ph s (pos + ph.length)).map
                (fun rest => (s + pos, s + pos + ph.length) :: rest) by
        simp [scanRunFuel, hidx]]
      rw [ih (pos + ph.length) h1 h2, hcons]
      simp

/-- The per-run scan, for a non-empty placeholder with pairwise
non-overlapping matches, returns exactly one interval per match position,
in ascending order, each of placeholder length, at
`startIndex + within-run position`. -/
theorem scanRun_eq (text ph : List Char) (s : Nat) (hph : ph ≠ [])
    (hsep : (matchPositions text ph).Pairwise (fun p q => p + ph.length ≤ q)) :
    scanRun text ph s
      = (matchPositions text ph).map (fun p => (s + p, s + p + ph.length)) := by
  unfold scanRun
  rw [scanRunFuel_eq text ph s hph hsep (text.length + 1) 0 (by omega) (by omega)]
  rw [List.filter_eq_self.mpr (by intro a _; simp)]
  rfl

/-! ## Lemmas about the Occurrence Locator -/

theorem elements_flatMap_eq (els : List Element) (ph : List Char) :
    els.flatMap (fun el => runOccurrences el ph)
      = (els.filterMap (fun el =>
          match el.textRun, el.startIndex with
          | some tr, some s => some (s, tr.content)
          | _, _ => none)).flatMap (fun r => scanRun r.2 ph r.1) := by
  induction els with
  | nil => rfl
  | cons el rest ih =>
    rw [List.flatMap_cons, List.filterMap_cons, ih]
    rcases el with ⟨tr, io, si, ei⟩
    cases tr <;> cases si <;> rfl

/-- The locator is the concatenation, over the text runs in traversal order,
of the per-run scans. -/
theorem locateOccurrences_eq_textRuns (content : List Block) (ph : List Char) :
    locateOccurrences content ph
      = (textRuns content).flatMap (fun r => scanRun r.2 ph r.1) := by
  induction content with
  | nil => rfl
  | cons b bs ih =>
    cases hp : b.paragraph with
    | none =>
      simp only [locateOccurrences, textRuns, List.flatMap_cons, hp] at ih ⊢
      simpa using ih
    | some para =>
      simp only [locateOccurrences, textRuns, List.flatMap_cons, hp,
        List.flatMap_append] at ih ⊢
      rw [elements_flatMap_eq, ih]

/-- The empty placeholder matches everywhere, so its match-position list is
never empty; contrapositively, a run with no matches has `ph ≠ []`. -/
theorem ne_nil_of_matchPositions_eq_nil {text ph : List Char}
    (h : matchPositions text ph = []) : ph ≠ [] := by
  intro hph
  subst hph
  have : (0 : Nat) ∈ matchPositions text [] := by
    rw [mem_matchPositions]
    exact ⟨Nat.zero_le _, by simp [matchesAt]⟩
  rw [h] at this
  simp at this

/-- A run with no match positions contributes no occurrences. -/
theorem scanRun_eq_nil {text ph : List Char} (s : Nat)
    (h : matchPositions text ph = []) : scanRun text ph s = [] := by
  have hph := ne_nil_of_matchPositions_eq_nil h
  rw [scanRun_eq text ph s hph (by rw [h]; exact List.Pairwise.nil), h]
  rfl

/-- Occurrence-free document: the locator returns the empty list. -/
theorem locateOccurrences_eq_nil {content : List Block} {ph : List Char}
    (h : ∀ r ∈ textRuns content, matchPositions r.2 ph = []) :
    locateOccurrences content ph = [] := by
  rw [locateOccurrences_eq_textRuns]
  rw [List.flatMap_eq_nil_iff]
  intro r hr
  exact scanRun_eq_nil r.1 (h r hr)

/-! ## Lemmas about the Mutation Planner sort -/

theorem insertDesc_perm (x : Nat × Nat) (l : List (Nat × Nat)) :
    (insertDesc x l).Perm (x :: l) := by
  induction l with
  | nil => exact List.Perm.refl _
  | cons y ys ih =>
    by_cases h : y.1 ≤ x.1
    · rw [insertDesc, if_pos h]
    · rw [insertDesc, if_neg h]
      exact (ih.cons y).trans (List.Perm.swap x y ys)

theorem sortDescByStart_perm (l : List (Nat × Nat)) :
    (sortDescByStart l).Perm l := by
  induction l with
  | nil => exact List.Perm.refl _
  | cons x xs ih => exact (insertDesc_perm x (sortDescByStart xs)).trans (ih.cons x)

theorem mem_insertDesc {a x : Nat × Nat} {l : List (Nat × Nat)} :
    a ∈ insertDesc x l ↔ a = x ∨ a ∈ l := by
  rw [(insertDesc_perm x l).mem_iff, List.mem_cons]

theorem pairwise_insertDesc {x : Nat × Nat} {l : List (Nat × Nat)}
    (h : l.Pairwise (fun a b => b.1 ≤ a.1)) :
    (insertDesc x l).Pairwise (fun a b => b.1 ≤ a.1) := by
  induction l with
  | nil => simp [insertDesc]
  | cons y ys ih =>
    rw [List.pairwise_cons] at h
    obtain ⟨hy, hys⟩ := h
    by_cases hc : y.1 ≤ x.1
    · rw [insertDesc, if_pos hc]
      rw [List.pairwise_cons]
      refine ⟨?_, List.pairwise_cons.mpr ⟨hy, hys⟩⟩
      intro b hb
      rcases List.mem_cons.mp hb with rfl | hb
      · exact hc
      · exact le_trans (hy b hb) hc
    · rw [insertDesc, if_neg hc]
      rw [List.pairwise_cons]
      refine ⟨?_, ih hys⟩
      intro b hb
      rcases mem_insertDesc.mp hb with rfl | hb
      · omega
      · exact hy b hb

/-- The planner's sorted list is in (weakly) descending start-offset order. -/
theorem sortDescByStart_pairwise (l : List (Nat × Nat)) :
    (sortDescByStart l).Pairwise (fun a b => b.1 ≤ a.1) := by
  induction l with
  | nil => exact List.Pairwise.nil
  | cons x xs ih => exact pairwise_insertDesc ih

/-! ## Lemmas about the image fallback -/

theorem firstImageInElements_append (l m : List Element) :
    firstImageInElements (l ++ m)
      = match firstImageInElements l with
        | some r => some r
        | none => firstImageInElements m := by
  induction l with
  | nil => rfl
  | cons el rest ih =>
    rcases el with ⟨tr, io, si, ei⟩
    cases io <;> cases si <;> cases ei <;>
      simp [firstImageInElements, ih]

/-- The double loop with `break` equals the first hit over the flattened
element traversal. -/
theorem findFirstImage_eq (content : List Block) :
    findFirstImage content = firstImageInElements (allParagraphElements content) := by
  induction content with
  | nil => rfl
  | cons b bs ih =>
    cases hp : b.paragraph with
    | none =>
      simp only [findFirstImage, allParagraphElements, List.flatMap_cons, hp, ih]
      rfl
    | some para =>
      simp only [findFirstImage, allParagraphElements, List.flatMap_cons, hp, ih,
        firstImageInElements_append]

/-- The inner fallback loop picks the range of the first element classified
as an embedded object by the guard of source line 166. -/
theorem firstImageInElements_eq_find (l : List Element) :
    firstImageInElements l
      = (l.find? isEmbeddedObjectEl).bind (fun el =>
          match el.startIndex, el.endIndex with
          | some s, some e => some (s, e)
          | _, _ => none) := by
  induction l with
  | nil => rfl
  | cons el rest ih =>
    rcases el with ⟨tr, io, si, ei⟩
    cases io <;> cases si <;> cases ei <;>
      simp [firstImageInElements, isEmbeddedObjectEl, List.find?, ih]

/-- A tree with no embedded-object element has no image fallback target. -/
theorem findFirstImage_eq_none {content : List Block}
    (h : ∀ el ∈ allParagraphElements content, el.inlineObjectElement = false) :
    findFirstImage content = none := by
  rw [findFirstImage_eq, firstImageInElements_eq_find]
  rw [List.find?_eq_none.mpr]
  · rfl
  · intro el hel
    simp [isEmbeddedObjectEl, h el hel]

/-! ## Lemmas about the handler control flow -/

theorem main_eq_mainBody {req : Request} {o : ReqObj} (w : World)
    (hmeth : req.method ≠ "OPTIONS") (hparse : parseBody req.body = .ok o) :
    main req w = mainBody o w := by
  unfold main
  rw [if_neg hmeth, hparse]

/-- The non-empty patterns never occur in the empty URL. -/
theorem containsSubstr_nil_docs : containsSubstr [] docsPattern = false := by decide

theorem containsSubstr_nil_sheets : containsSubstr [] sheetsPattern = false := by decide

/-- A validated Docs request reaches the Docs flow with the fetched tree. -/
theorem mainBody_docs (o : ReqObj) (w : World) (u uri did tok : List Char)
    (content : List Block)
    (hu : o.docUrl = some u) (hiu : o.imageUrl = some uri) (huri : uri ≠ [])
    (hdocs : containsSubstr u docsPattern = true)
    (hid : resolveDocumentId true u o.documentId = some did) (hdid : did ≠ [])
    (htok : w.token = .ok tok) (hget : w.docGet = .ok content) :
    mainBody o w = docsFlow did content (o.placeholder.getD defaultPlaceholder)
      uri (o.widthPt.getD 200) (o.heightPt.getD 200) w := by
  have hune : u ≠ [] := by
    intro h
    rw [h, containsSubstr_nil_docs] at hdocs
    exact absurd hdocs (by simp)
  have h1 : u.isEmpty = false := by simpa [List.isEmpty_iff] using hune
  have h2 : uri.isEmpty = false := by simpa [List.isEmpty_iff] using huri
  have h3 : did.isEmpty = false := by simpa [List.isEmpty_iff] using hdid
  simp only [mainBody, hu, hiu, Option.getD_some, h1, h2, Bool.or_self,
    Bool.false_eq_true, if_false, hdocs, Bool.not_true, Bool.false_and, hid,
    h3, htok, if_true, hget]

/-- A validated Sheets request reaches the Sheets flow. -/
theorem mainBody_sheets (o : ReqObj) (w : World) (u uri did tok : List Char)
    (hu : o.docUrl = some u) (hiu : o.imageUrl = some uri) (huri : uri ≠ [])
    (hdocs : containsSubstr u docsPattern = false)
    (hsheets : containsSubstr u sheetsPattern = true)
    (hid : resolveDocumentId false u o.documentId = some did) (hdid : did ≠ [])
    (htok : w.token = .ok tok) :
    mainBody o w
      = sheetsFlow did (o.placeholder.getD defaultPlaceholder) uri w := by
  have hune : u ≠ [] := by
    intro h
    rw [h, containsSubstr_nil_sheets] at hsheets
    exact absurd hsheets (by simp)
  have h1 : u.isEmpty = false := by simpa [List.isEmpty_iff] using hune
  have h2 : uri.isEmpty = false := by simpa [List.isEmpty_iff] using huri
  have h3 : did.isEmpty = false := by simpa [List.isEmpty_iff] using hdid
  simp only [mainBody, hu, hiu, Option.getD_some, h1, h2, Bool.or_self,
    Bool.false_eq_true, if_false, hdocs, hsheets, Bool.not_true, Bool.not_false,
    Bool.true_and, Bool.and_false, hid, h3, htok, if_true]

/-- The write-back batch is the matching sheets, in order, with every row
rewritten cell-by-cell. -/
theorem buildSheetData_eq_filter_map (ph uri : List Char) (vrs : List ValueRange) :
    buildSheetData ph uri vrs
      = (vrs.filter (fun vr =>
          (vr.values.getD []).any (fun row => row.any (cellMatches ph)))).map
          (fun vr => ⟨vr.range.takeWhile (fun c => c ≠ '!') ++ "!A1".toList,
            (vr.values.getD []).map (fun row => row.map (rewriteCell ph uri))⟩) := by
  induction vrs with
  | nil => rfl
  | cons vr rest ih =>
    simp only [buildSheetData] at ih ⊢
    rw [List.filterMap_cons]
    by_cases h : ((vr.values.getD []).any fun row => row.any (cellMatches ph)) = true
    · rw [List.filter_cons_of_pos (by simpa using h)]
      simp only [h, if_true, List.map_cons]
      rw [ih]
    · have h' : ((vr.values.getD []).any fun row => row.any (cellMatches ph)) = false :=
        Bool.eq_false_iff.mpr h
      rw [List.filter_cons_of_neg (by simp [h'])]
      simp only [h', Bool.false_eq_true, if_false]
      exact ih

/-! ## Claims -/

/-- C1: for every non-empty occurrence list the Mutation Planner emits the
batch in descending start-offset order (the emitted list is a permutation of
the input, pairwise descending on start offsets), producing for each
occurrence exactly delete-then-insert at the occurrence's interval and start;
in particular occurrences [50,58) and [10,18) yield
delete[50,58), insert@50, delete[10,18), insert@10. -/
theorem mutation_planner_descending (occs : List (Nat × Nat)) (uri : List Char)
    (wPt hPt : Nat) (_hne : occs ≠ []) :
    (sortDescByStart occs).Perm occs
    ∧ (sortDescByStart occs).Pairwise (fun a b => b.1 ≤ a.1)
    ∧ docsRequests occs uri wPt hPt
        = (sortDescByStart occs).flatMap (fun o =>
            [DocRequest.deleteContentRange o.1 o.2,
             DocRequest.insertInlineImage o.1 uri wPt hPt])
    ∧ docsRequests [(50, 58), (10, 18)] uri wPt hPt
        = [DocRequest.deleteContentRange 50 58,
           DocRequest.insertInlineImage 50 uri wPt hPt,
           DocRequest.deleteContentRange 10 18,
           DocRequest.insertInlineImage 10 uri wPt hPt] :=
  ⟨sortDescByStart_perm occs, sortDescByStart_pairwise occs, rfl, rfl⟩

/-- Witness for C1 at the occurrence pair of the claim. -/
theorem mutation_planner_descending_witness :
    (sortDescByStart [(50, 58), (10, 18)]).Perm [(50, 58), (10, 18)]
    ∧ (sortDescByStart [(50, 58), (10, 18)]).Pairwise (fun a b => b.1 ≤ a.1)
    ∧ docsRequests [(50, 58), (10, 18)] exImageUrl 200 200
        = (sortDescByStart [(50, 58), (10, 18)]).flatMap (fun o =>
            [DocRequest.deleteContentRange o.1 o.2,
             DocRequest.insertInlineImage o.1 exImageUrl 200 200])
    ∧ docsRequests [(50, 58), (10, 18)] exImageUrl 200 200
        = [DocRequest.deleteContentRange 50 58,
           DocRequest.insertInlineImage 50 exImageUrl 200 200,
           DocRequest.deleteContentRange 10 18,
           DocRequest.insertInlineImage 10 exImageUrl 200 200] :=
  mutation_planner_descending [(50, 58), (10, 18)] exImageUrl 200 200 (by decide)

/-- C10: with a non-empty placeholder the per-run scanning loop terminates
within `text.length + 1` iterations; with the empty placeholder it completes
under no iteration bound at all (the loop never exits). -/
theorem scan_loop_terminates :
    (∀ (text ph : List Char) (s : Nat), ph ≠ [] →
        (scanRunFuel (text.length + 1) text ph s 0).isSome = true)
    ∧ ∀ (fuel : Nat) (text : List Char) (s from_ : Nat),
        scanRunFuel fuel text [] s from_ = none :=
  ⟨fun text ph s hph =>
      scanRunFuel_isSome text ph s hph (text.length + 1) 0 (by omega) (by omega),
   fun fuel text s from_ => scanRunFuel_nil_placeholder text s fuel from_⟩

/-- Witness for C10 on the run "ab". -/
theorem scan_loop_terminates_witness :
    (scanRunFuel ("ab".toList.length + 1) "ab".toList "a".toList 0 0).isSome = true
    ∧ scanRunFuel 5 "ab".toList [] 0 0 = none :=
  ⟨scan_loop_terminates.1 "ab".toList "a".toList 0 (by decide),
   scan_loop_terminates.2 5 "ab".toList 0 0⟩

/-- C9: a request whose docUrl matches neither the Docs nor the Sheets
pattern is answered 400 with an empty network trace — in particular no
token exchange with the credential provider is issued. -/
theorem unsupported_url_400 (req : Request) (o : ReqObj) (w : World) (u : List Char)
    (hmeth : req.method ≠ "OPTIONS") (hparse : parseBody req.body = .ok o)
    (hu : o.docUrl = some u)
    (hdocs : containsSubstr u docsPattern = false)
    (hsheets : containsSubstr u sheetsPattern = false) :
    (main req w).1.statusCode = 400 ∧ (main req w).2 = [] := by
  rw [main_eq_mainBody w hmeth hparse]
  rcases Bool.eq_false_or_eq_true (u.isEmpty || (o.imageUrl.getD []).isEmpty) with h | h
  · simp [mainBody, hu, h]
  · simp [mainBody, hu, h, hdocs, hsheets]

/-- Witness for C9 at a non-Google URL. -/
theorem unsupported_url_400_witness :
    (main exBadReq wEmptyDoc).1.statusCode = 400 ∧ (main exBadReq wEmptyDoc).2 = [] :=
  unsupported_url_400 _ _ wEmptyDoc exBadUrl
    (by decide) rfl rfl (by decide) (by decide)

/-- C8: the write-back payload contains exactly the sheets with a matching
cell (sheets without one are omitted), each with its fetched rows rewritten
pointwise; cells not containing the placeholder round-trip unchanged, and
every matching string cell becomes exactly the image formula. -/
theorem sheet_rewriter_frame (ph uri : List Char) (vrs : List ValueRange) :
    buildSheetData ph uri vrs
      = (vrs.filter (fun vr =>
          (vr.values.getD []).any (fun row => row.any (cellMatches ph)))).map
          (fun vr => ⟨vr.range.takeWhile (fun c => c ≠ '!') ++ "!A1".toList,
            (vr.values.getD []).map (fun row => row.map (rewriteCell ph uri))⟩)
    ∧ (∀ c : Cell, cellMatches ph c = false → rewriteCell ph uri c = c)
    ∧ (∀ s : List Char, cellMatches ph (.str s) = true →
        rewriteCell ph uri (.str s) = .str (imageFormula uri)) := by
  refine ⟨buildSheetData_eq_filter_map ph uri vrs, ?_, ?_⟩
  · intro c hc
    cases c with
    | str s =>
      simp only [cellMatches] at hc
      simp [rewriteCell, hc]
    | nonString => rfl
  · intro s hs
    simp only [cellMatches] at hs
    simp [rewriteCell, hs]

/-- Witness for C8 on the spec's example sheet
`["{{images}} here", "other"]`. -/
theorem sheet_rewriter_frame_witness :
    buildSheetData defaultPlaceholder exImageUrl wSheetsVrs
      = [⟨"Sheet1!A1".toList,
          [[Cell.str (imageFormula exImageUrl), Cell.str "other".toList]]⟩]
    ∧ rewriteCell defaultPlaceholder exImageUrl (.str "other".toList)
        = .str "other".toList
    ∧ rewriteCell defaultPlaceholder exImageUrl
        (.str ("\x7b\x7bimages\x7d\x7d here".toList))
        = .str (imageFormula exImageUrl) := by
  obtain ⟨h1, h2, h3⟩ := sheet_rewriter_frame defaultPlaceholder exImageUrl wSheetsVrs
  exact ⟨h1.trans (by decide), h2 _ (by decide), h3 _ (by decide)⟩

/-- C6 counterexample: a string body that fails to parse as JSON is answered
500 (the parse error is caught by the generic handler), not a 4xx status. -/
theorem invalid_json_counterexample :
    (main ⟨"POST", .str (.error "Unexpected token o in JSON")⟩ wEmptyDoc).1.statusCode = 500
    ∧ ¬(400 ≤ (main ⟨"POST",
          .str (.error "Unexpected token o in JSON")⟩ wEmptyDoc).1.statusCode
        ∧ (main ⟨"POST",
            .str (.error "Unexpected token o in JSON")⟩ wEmptyDoc).1.statusCode ≤ 499) := by
  decide

/-- C6 as amended: a string body whose JSON parse fails is answered 500 with
the parse error as plain-text body and an empty network trace. -/
theorem invalid_json_500 (m e : String) (w : World) (hm : m ≠ "OPTIONS") :
    main ⟨m, .str (.error e)⟩ w = (⟨500, .text e⟩, []) := by
  unfold main
  rw [if_neg hm]
  rfl

/-- Witness for the amended C6. -/
theorem invalid_json_500_witness :
    main ⟨"POST", .str (.error "Unexpected token o in JSON")⟩ wEmptyDoc
      = (⟨500, .text "Unexpected token o in JSON"⟩, []) :=
  invalid_json_500 "POST" "Unexpected token o in JSON" wEmptyDoc (by decide)

/-- C2 counterexample: a tree whose two text runs have ascending start
offsets (0 then 1) but overlapping offset ranges.  The placeholder "p" is
non-empty, the two occurrences [3,4) and [1,2) are non-overlapping, and the
locator returns both with the correct lengths — but not in ascending
document-offset order, refuting the claim as stated. -/
theorem occurrence_locator_counterexample :
    ("p".toList ≠ [])
    ∧ (textRuns c2Tree).Pairwise (fun r₁ r₂ => r₁.1 < r₂.1)
    ∧ (locateOccurrences c2Tree "p".toList).Pairwise
        (fun a b => a.2 ≤ b.1 ∨ b.2 ≤ a.1)
    ∧ locateOccurrences c2Tree "p".toList = [(3, 4), (1, 2)]
    ∧ ¬ (locateOccurrences c2Tree "p".toList).Pairwise (fun a b => a.1 < b.1) := by
  decide

/-- C2 as amended: when the text runs occupy pairwise disjoint ascending
offset ranges (each run starts at or after the previous run's start plus its
length) and the matches inside each run are pairwise non-overlapping, the
locator returns exactly one interval per match, in ascending
document-offset order, each of exactly the placeholder's length, with
absolute start = run start offset + within-run match position. -/
theorem occurrence_locator_correct (content : List Block) (ph : List Char)
    (hph : ph ≠ [])
    (hsep : ∀ r ∈ textRuns content,
      (matchPositions r.2 ph).Pairwise (fun p q => p + ph.length ≤ q))
    (hdisj : (textRuns content).Pairwise (fun r₁ r₂ => r₁.1 + r₁.2.length ≤ r₂.1)) :
    locateOccurrences content ph
      = (textRuns content).flatMap (fun r =>
          (matchPositions r.2 ph).map (fun p => (r.1 + p, r.1 + p + ph.length)))
    ∧ (locateOccurrences content ph).length
      = ((textRuns content).map (fun r => (matchPositions r.2 ph).length)).sum
    ∧ (locateOccurrences content ph).Pairwise (fun a b => a.1 < b.1)
    ∧ ∀ occ ∈ locateOccurrences content ph, occ.2 = occ.1 + ph.length := by
  have hl : 0 < ph.length := List.length_pos.mpr hph
  have heq : locateOccurrences content ph = (textRuns content).flatMap (fun r =>
      (matchPositions r.2 ph).map (fun p => (r.1 + p, r.1 + p + ph.length))) := by
    rw [locateOccurrences_eq_textRuns, List.flatMap_def, List.flatMap_def]
    apply congrArg List.flatten
    apply List.map_congr_left
    intro r hr
    exact scanRun_eq r.2 ph r.1 hph (hsep r hr)
  refine ⟨heq, ?_, ?_, ?_⟩
  · rw [heq, List.length_flatMap]
    apply congrArg List.sum
    apply List.map_congr_left
    intro r _
    simp [Function.comp]
  · rw [heq, List.pairwise_flatMap]
    constructor
    · intro r hr
      rw [List.pairwise_map]
      exact (hsep r hr).imp (fun h => by omega)
    · refine List.Pairwise.imp ?_ hdisj
      intro r₁ r₂ h12 a ha b hb
      rw [List.mem_map] at ha hb
      obtain ⟨p, hp, rfl⟩ := ha
      obtain ⟨q, hq, rfl⟩ := hb
      rw [mem_matchPositions] at hp
      have hpb := matchesAt_bound hp.2 hph
      show r₁.1 + p < r₂.1 + q
      omega
  · intro occ hocc
    rw [heq, List.mem_flatMap] at hocc
    obtain ⟨r, hr, hocc⟩ := hocc
    rw [List.mem_map] at hocc
    obtain ⟨p, hp, rfl⟩ := hocc
    rfl

/-- Witness for the amended C2 on a tree with two disjoint ascending runs,
each containing one default-placeholder occurrence. -/
theorem occurrence_locator_correct_witness :
    locateOccurrences c2GoodTree defaultPlaceholder
      = (textRuns c2GoodTree).flatMap (fun r =>
          (matchPositions r.2 defaultPlaceholder).map
            (fun p => (r.1 + p, r.1 + p + defaultPlaceholder.length)))
    ∧ (locateOccurrences c2GoodTree defaultPlaceholder).length
      = ((textRuns c2GoodTree).map
          (fun r => (matchPositions r.2 defaultPlaceholder).length)).sum
    ∧ (locateOccurrences c2GoodTree defaultPlaceholder).Pairwise
        (fun a b => a.1 < b.1)
    ∧ ∀ occ ∈ locateOccurrences c2GoodTree defaultPlaceholder,
        occ.2 = occ.1 + defaultPlaceholder.length :=
  occurrence_locator_correct c2GoodTree defaultPlaceholder
    (by decide) (by decide) (by decide)

/-- C3: a Docs document with zero placeholder occurrences and an embedded
image is answered 200 with replaced 1, type "docs" and mode "first-image",
and the submitted batch mutates exactly the first embedded object's own
[startIndex, endIndex) interval — delete that range, insert at its start. -/
theorem docs_image_fallback (req : Request) (o : ReqObj) (w : World)
    (u uri did tok ph : List Char) (content : List Block) (el : Element) (s e : Nat)
    (hmeth : req.method ≠ "OPTIONS") (hparse : parseBody req.body = .ok o)
    (hu : o.docUrl = some u) (hiu : o.imageUrl = some uri) (huri : uri ≠ [])
    (hdocs : containsSubstr u docsPattern = true)
    (hid : resolveDocumentId true u o.documentId = some did) (hdid : did ≠ [])
    (htok : w.token = .ok tok) (hget : w.docGet = .ok content)
    (hph : o.placeholder.getD defaultPlaceholder = ph)
    (hocc : ∀ r ∈ textRuns content, matchPositions r.2 ph = [])
    (hfind : (allParagraphElements content).find? isEmbeddedObjectEl = some el)
    (hs : el.startIndex = some s) (he : el.endIndex = some e)
    (hbatch : w.docBatch = .ok ()) :
    main req w
      = (⟨200, .json ⟨.num 1, some "docs", some "first-image"⟩⟩,
         [Step.tokenExchange, Step.docsGet did,
          Step.docsBatchUpdate did
            [DocRequest.deleteContentRange s e,
             DocRequest.insertInlineImage s uri (o.widthPt.getD 200)
               (o.heightPt.getD 200)]]) := by
  rw [main_eq_mainBody w hmeth hparse,
    mainBody_docs o w u uri did tok content hu hiu huri hdocs hid hdid htok hget, hph]
  have hloc : locateOccurrences content ph = [] := locateOccurrences_eq_nil hocc
  have himg : findFirstImage content = some (s, e) := by
    rw [findFirstImage_eq, firstImageInElements_eq_find, hfind]
    simp [hs, he]
  simp [docsFlow, hloc, himg, hbatch]

/-- Witness for C3: a document with no text and one embedded object
spanning [5, 6). -/
theorem docs_image_fallback_witness :
    main exDocsReq wC3
      = (⟨200, .json ⟨.num 1, some "docs", some "first-image"⟩⟩,
         [Step.tokenExchange, Step.docsGet "abc".toList,
          Step.docsBatchUpdate "abc".toList
            [DocRequest.deleteContentRange 5 6,
             DocRequest.insertInlineImage 5 exImageUrl 200 200]]) :=
  docs_image_fallback exDocsReq _ wC3 exDocUrl exImageUrl "abc".toList []
    defaultPlaceholder c3Tree c3El 5 6
    (by decide) rfl rfl rfl (by decide) (by decide) (by decide) (by decide)
    rfl rfl rfl (by decide) rfl rfl rfl rfl

/-- C5 counterexample: a Docs document with neither a placeholder occurrence
nor an embedded image is answered 200 with replaced 0 and no batch, but the
body carries no type field at all (source line 175 serializes only
replaced), so it does not equal a body with type "docs". -/
theorem docs_no_target_counterexample :
    main exDocsReq wEmptyDoc
      = (⟨200, .json ⟨.num 0, none, none⟩⟩,
         [Step.tokenExchange, Step.docsGet "abc".toList])
    ∧ (JsonBody.mk (.num 0) none none).type ≠ some "docs" := by
  refine ⟨by decide, by simp⟩

/-- C5 as amended: a Docs document with neither a placeholder occurrence nor
an embedded image is answered 200 with replaced 0 and no type field in the
body, and no mutation batch is submitted (the trace stops at the document
fetch). -/
theorem docs_no_target (req : Request) (o : ReqObj) (w : World)
    (u uri did tok ph : List Char) (content : List Block)
    (hmeth : req.method ≠ "OPTIONS") (hparse : parseBody req.body = .ok o)
    (hu : o.docUrl = some u) (hiu : o.imageUrl = some uri) (huri : uri ≠ [])
    (hdocs : containsSubstr u docsPattern = true)
    (hid : resolveDocumentId true u o.documentId = some did) (hdid : did ≠ [])
    (htok : w.token = .ok tok) (hget : w.docGet = .ok content)
    (hph : o.placeholder.getD defaultPlaceholder = ph)
    (hocc : ∀ r ∈ textRuns content, matchPositions r.2 ph = [])
    (himg : ∀ el ∈ allParagraphElements content, el.inlineObjectElement = false) :
    main req w
      = (⟨200, .json ⟨.num 0, none, none⟩⟩,
         [Step.tokenExchange, Step.docsGet did]) := by
  rw [main_eq_mainBody w hmeth hparse,
    mainBody_docs o w u uri did tok content hu hiu huri hdocs hid hdid htok hget, hph]
  have hloc : locateOccurrences content ph = [] := locateOccurrences_eq_nil hocc
  have hfi : findFirstImage content = none := findFirstImage_eq_none himg
  simp [docsFlow, hloc, hfi]

/-- Witness for the amended C5 on the empty document. -/
theorem docs_no_target_witness :
    main exDocsReq wEmptyDoc
      = (⟨200, .json ⟨.num 0, none, none⟩⟩,
         [Step.tokenExchange, Step.docsGet "abc".toList]) :=
  docs_no_target exDocsReq _ wEmptyDoc exDocUrl exImageUrl "abc".toList []
    defaultPlaceholder []
    (by decide) rfl rfl rfl (by decide) (by decide) (by decide) (by decide)
    rfl rfl rfl (by decide) (by decide)

/-- C4 counterexample: a spreadsheet where exactly one sheet is modified is
answered with `replaced` equal to the JSON boolean `true` (source line 273),
which is not the number 1 — the replaced field does not equal the count of
modified sheets. -/
theorem sheets_replaced_counterexample :
    (main exSheetsReq wSheets).1
      = ⟨200, .json ⟨.boolean true, some "sheets", none⟩⟩
    ∧ (buildSheetData defaultPlaceholder exImageUrl wSheetsVrs).length = 1
    ∧ RVal.boolean true ≠ RVal.num 1 := by
  decide

/-- C4 as amended: whenever at least one sheet has a matching cell, the
response is 200 with `replaced` equal to the boolean true (not a numeric
sheet count) and type "sheets", after a write-back of exactly the modified
sheets. -/
theorem sheets_replaced_flag (req : Request) (o : ReqObj) (w : World)
    (u uri did tok ph : List Char) (sheets : List (Option (List Char)))
    (vrs : List ValueRange)
    (hmeth : req.method ≠ "OPTIONS") (hparse : parseBody req.body = .ok o)
    (hu : o.docUrl = some u) (hiu : o.imageUrl = some uri) (huri : uri ≠ [])
    (hdocs : containsSubstr u docsPattern = false)
    (hsheets : containsSubstr u sheetsPattern = true)
    (hid : resolveDocumentId false u o.documentId = some did) (hdid : did ≠ [])
    (htok : w.token = .ok tok)
    (hph : o.placeholder.getD defaultPlaceholder = ph)
    (hmeta : w.metaGet = .ok sheets) (hvals : w.valuesGet = .ok vrs)
    (hbatch : w.sheetsBatch = .ok ())
    (hcell : ∃ vr ∈ vrs, (vr.values.getD []).any (fun row => row.any (cellMatches ph)) = true) :
    main req w
      = (⟨200, .json ⟨.boolean true, some "sheets", none⟩⟩,
         [Step.tokenExchange, Step.sheetsMetaGet did,
          Step.sheetsValuesGet did ((sheets.filterMap id).filter (fun t => !t.isEmpty)),
          Step.sheetsValuesBatchUpdate did (buildSheetData ph uri vrs)]) := by
  rw [main_eq_mainBody w hmeth hparse,
    mainBody_sheets o w u uri did tok hu hiu huri hdocs hsheets hid hdid htok, hph]
  have hne : buildSheetData ph uri vrs ≠ [] := by
    obtain ⟨vr, hvr, hP⟩ := hcell
    rw [buildSheetData_eq_filter_map]
    intro hnil
    rw [List.map_eq_nil_iff] at hnil
    have : vr ∈ vrs.filter (fun vr =>
        (vr.values.getD []).any (fun row => row.any (cellMatches ph))) :=
      List.mem_filter.mpr ⟨hvr, hP⟩
    rw [hnil] at this
    simp at this
  have hne' : (buildSheetData ph uri vrs).isEmpty = false := by
    simpa [List.isEmpty_iff] using hne
  simp [sheetsFlow, hmeta, hvals, hne', hbatch]

/-- Witness for the amended C4 on a spreadsheet with one matching cell. -/
theorem sheets_replaced_flag_witness :
    main exSheetsReq wSheets
      = (⟨200, .json ⟨.boolean true, some "sheets", none⟩⟩,
         [Step.tokenExchange, Step.sheetsMetaGet "sid".toList,
          Step.sheetsValuesGet "sid".toList
            (([some "Sheet1".toList].filterMap id).filter (fun t => !t.isEmpty)),
          Step.sheetsValuesBatchUpdate "sid".toList
            (buildSheetData defaultPlaceholder exImageUrl wSheetsVrs)]) :=
  sheets_replaced_flag exSheetsReq _ wSheets exSheetUrl exImageUrl "sid".toList []
    defaultPlaceholder [some "Sheet1".toList] wSheetsVrs
    (by decide) rfl rfl rfl (by decide) (by decide) (by decide) (by decide)
    (by decide) rfl rfl rfl rfl rfl (by decide)

/-- C7: a spreadsheet with no matching cell in any sheet is answered 200
with replaced 0 and type "sheets", and the trace contains no write-back
call (it ends at the values fetch). -/
theorem sheets_no_match (req : Request) (o : ReqObj) (w : World)
    (u uri did tok ph : List Char) (sheets : List (Option (List Char)))
    (vrs : List ValueRange)
    (hmeth : req.method ≠ "OPTIONS") (hparse : parseBody req.body = .ok o)
    (hu : o.docUrl = some u) (hiu : o.imageUrl = some uri) (huri : uri ≠ [])
    (hdocs : containsSubstr u docsPattern = false)
    (hsheets : containsSubstr u sheetsPattern = true)
    (hid : resolveDocumentId false u o.documentId = some did) (hdid : did ≠ [])
    (htok : w.token = .ok tok)
    (hph : o.placeholder.getD defaultPlaceholder = ph)
    (hmeta : w.metaGet = .ok sheets) (hvals : w.valuesGet = .ok vrs)
    (hnomatch : ∀ vr ∈ vrs, ∀ row ∈ vr.values.getD [], ∀ c ∈ row,
      cellMatches ph c = false) :
    main req w
      = (⟨200, .json ⟨.num 0, some "sheets", none⟩⟩,
         [Step.tokenExchange, Step.sheetsMetaGet did,
          Step.sheetsValuesGet did
            ((sheets.filterMap id).filter (fun t => !t.isEmpty))]) := by
  rw [main_eq_mainBody w hmeth hparse,
    mainBody_sheets o w u uri did tok hu hiu huri hdocs hsheets hid hdid htok, hph]
  have hdata : buildSheetData ph uri vrs = [] := by
    rw [buildSheetData_eq_filter_map]
    have hfilter : vrs.filter (fun vr =>
        (vr.values.getD []).any (fun row => row.any (cellMatches ph))) = [] := by
      rw [List.filter_eq_nil_iff]
      intro vr hvr
      simp only [Bool.not_eq_true, List.any_eq_false]
      intro row hrow c hc
      exact hnomatch vr hvr row hrow c hc
    rw [hfilter, List.map_nil]
  simp [sheetsFlow, hmeta, hvals, hdata]

/-- Witness for C7 on a spreadsheet whose only cell is "hello". -/
theorem sheets_no_match_witness :
    main exSheetsReq wNoMatch
      = (⟨200, .json ⟨.num 0, some "sheets", none⟩⟩,
         [Step.tokenExchange, Step.sheetsMetaGet "sid".toList,
          Step.sheetsValuesGet "sid".toList
            (([some "Sheet1".toList].filterMap id).filter (fun t => !t.isEmpty))]) :=
  sheets_no_match exSheetsReq _ wNoMatch exSheetUrl exImageUrl "sid".toList []
    defaultPlaceholder [some "Sheet1".toList] wNoMatchVrs
    (by decide) rfl rfl rfl (by decide) (by decide) (by decide) (by decide)
    (by decide) rfl rfl rfl rfl (by decide)

end ReplaceImage
